import Mathlib

/-!
Verification of the boustrophedon coverage planner
(`ipa_room_exploration/common/src/boustrophedon_explorator.cpp`,
`boustrophedonExplorer::getExplorationPath`).

The occupancy grid is modelled as a list of rows of booleans:
`true` stands for a FREE pixel (value 255 in the source) and `false` for an
OBSTACLE pixel (value 0).  External collaborators that are not part of the
provided source (OpenCV `findContours` / `pointPolygonTest` /
`generalizedPolygon` accessors, the A* path planner, the TSP solver and the
`mapPath` footprint adapter) appear as explicit oracle parameters with their
contracts as hypotheses.
-/

/-- Occupancy grid: rows of pixels, `true` = FREE (255), `false` = OBSTACLE (0). -/
abbrev Grid := List (List Bool)

/-- Number of rows (`room_map.rows`). -/
def Grid.rows (g : Grid) : Nat := g.length

/-- Number of columns (`room_map.cols`); a cv::Mat is rectangular, so the
first row's length is the global width. -/
def Grid.cols (g : Grid) : Nat := (g.headD []).length

/-- Pixel access `room_map.at<uchar>(y, x)`; out-of-range reads default to
OBSTACLE. -/
def Grid.cell (g : Grid) (y x : Nat) : Bool := (g.getD y []).getD x false

/-- Pixel access with signed indices (the source probes `x+dx` with
`dx = -1..1`); any out-of-range read is modelled as OBSTACLE. -/
def Grid.cellI (g : Grid) (y x : Int) : Bool :=
  if 0 ≤ y ∧ 0 ≤ x then g.cell y.toNat x.toNat else false

/-- Write one pixel (`cell_map.at<uchar>(y, x) = b`); out-of-range writes are
dropped. -/
def Grid.put (g : Grid) (y x : Nat) (b : Bool) : Grid :=
  g.set y ((g.getD y []).set x b)

/-- State of the initialisation scan (source lines 47-73): `y_start`,
`n_start` and the `found` / `obstacle` flags. -/
structure InitState where
  yStart : Nat
  nStart : Nat
  found : Bool
  obstacle : Bool
deriving DecidableEq, Repr

/-- One pixel of the initialisation scan: the three-way branch of source
lines 55-68. -/
def initCell (y : Nat) (s : InitState) (b : Bool) : InitState :=
  if b && !s.found then { s with yStart := y, found := true }
  else if s.found && !s.obstacle && !b then
    { s with nStart := s.nStart + 1, obstacle := true }
  else if s.found && s.obstacle && b then { s with obstacle := false }
  else s

/-- One row of the initialisation scan (inner `x` loop, source lines 53-69). -/
def initRow (s : InitState) (y : Nat) (row : List Bool) : InitState :=
  row.foldl (initCell y) s

/-- Row loop of the initialisation scan; the loop breaks right after the
first row in which `found` became true (source lines 71-72). -/
def initGo : List (Nat × List Bool) → InitState → InitState
  | [], s => s
  | (y, row) :: rest, s =>
    let s' := initRow s y row
    if s'.found then s' else initGo rest s'

/-- The initialisation scan of `getExplorationPath` (source lines 47-73):
finds the smallest `y` with a FREE pixel and the initial segment count. -/
def initScan (g : Grid) : InitState :=
  initGo g.enum ⟨0, 0, false, false⟩

/-- Whether row `y` of the grid contains a FREE pixel. -/
def rowHasFree (g : Grid) (y : Nat) : Bool := (g.getD y []).any (fun b => b)

/-- Number of maximal OBSTACLE runs of a row fragment (a run is a maximal
block of `false`). -/
def countFalseRuns : List Bool → Nat
  | [] => 0
  | true :: r => countFalseRuns r
  | [false] => 1
  | false :: false :: r => countFalseRuns (false :: r)
  | false :: true :: r => countFalseRuns (true :: r) + 1

/-- Obstacle runs lying strictly between the first and the last FREE pixel of
a row: trim the OBSTACLE margins on both ends, then count runs. -/
def runsBetween (row : List Bool) : Nat :=
  countFalseRuns
    (((row.dropWhile (fun b => !b)).reverse.dropWhile (fun b => !b)).reverse)

/-- State of the per-slice segment count (source lines 79-100). -/
structure SegState where
  segments : Nat
  obstacleHit : Bool
  hitWhite : Bool
deriving DecidableEq, Repr

/-- One pixel of the segment count (source lines 85-99). -/
def segStep (s : SegState) (b : Bool) : SegState :=
  if b && !s.hitWhite then { s with hitWhite := true }
  else if s.hitWhite then
    if !s.obstacleHit && !b then
      { s with segments := s.segments + 1, obstacleHit := true }
    else if s.obstacleHit && b then { s with obstacleHit := false }
    else s
  else s

/-- `number_of_segments` of slice `y` (source lines 79-100). -/
def countSegments (g : Grid) (y : Nat) : Nat :=
  ((List.range g.cols).foldl (fun s x => segStep s (g.cell y x)) ⟨0, false, false⟩).segments

/-- The three pixels probed by the 1x3 critical-point stencil of an IN event
(source lines 118-120): row `y-1`, columns `x-1`, `x`, `x+1`. -/
def inProbes (y x : Nat) : List (Int × Int) :=
  [((y : Int) - 1, (x : Int) - 1), ((y : Int) - 1, (x : Int)), ((y : Int) - 1, (x : Int) + 1)]

/-- The three pixels probed by the stencil of an OUT event (source lines
160-162): row `y`, columns `x-1`, `x`, `x+1`. -/
def outProbes (y x : Nat) : List (Int × Int) :=
  [((y : Int), (x : Int) - 1), ((y : Int), (x : Int)), ((y : Int), (x : Int) + 1)]

/-- IN-event critical-point test (source lines 117-120): all three pixels
above the obstacle must be FREE. -/
def criticalIn (g : Grid) (y x : Nat) : Bool :=
  g.cellI ((y : Int) - 1) ((x : Int) - 1) && g.cellI ((y : Int) - 1) (x : Int) &&
    g.cellI ((y : Int) - 1) ((x : Int) + 1)

/-- OUT-event critical-point test (source lines 159-162): all three pixels
below (row `y`) must be FREE. -/
def criticalOut (g : Grid) (y x : Nat) : Bool :=
  g.cellI (y : Int) ((x : Int) - 1) && g.cellI (y : Int) (x : Int) &&
    g.cellI (y : Int) ((x : Int) + 1)

/-- Paint the separator leftwards from the critical point (source lines
128-134): starting at column `pos = x-1`, while `pos > 0`, turn FREE pixels
of the cell map into OBSTACLE and stop at the first OBSTACLE pixel. -/
def paintLeft (y : Nat) : Grid → Nat → Nat → Grid
  | cm, _, 0 => cm
  | cm, pos, fuel + 1 =>
    if 0 < pos then
      if cm.cell y pos then paintLeft y (cm.put y pos false) (pos - 1) fuel
      else cm
    else cm

/-- Paint the separator rightwards from the critical point (source lines
137-143): starting at column `pos = x+1`, while `pos < cols`, turn FREE
pixels into OBSTACLE and stop at the first OBSTACLE pixel. -/
def paintRight (cols y : Nat) : Grid → Nat → Nat → Grid
  | cm, _, 0 => cm
  | cm, pos, fuel + 1 =>
    if pos < cols then
      if cm.cell y pos then paintRight cols y (cm.put y pos false) (pos + 1) fuel
      else cm
    else cm

/-- State threaded through an event scan: the `hit_white_pixel` flag, the
mutable cell map and (for auditing) the list of pixels the stencil read. -/
structure EventState where
  hitWhite : Bool
  cellMap : Grid
  probes : List (Int × Int)

/-- One column of the IN-event scan (source lines 109-146). -/
def inStep (g : Grid) (y : Nat) (s : EventState) (x : Nat) : EventState :=
  if g.cell y x && !s.hitWhite then { s with hitWhite := true }
  else if s.hitWhite && !(g.cell y x) then
    let s1 := { s with probes := s.probes ++ inProbes y x }
    if criticalIn g y x then
      { s1 with cellMap := paintRight g.cols y (paintLeft y s1.cellMap (x - 1) x) (x + 1) g.cols }
    else s1
  else s

/-- One column of the OUT-event scan (source lines 151-188); the row examined
is `y-1` and painting happens on row `y-1`. -/
def outStep (g : Grid) (y : Nat) (s : EventState) (x : Nat) : EventState :=
  if g.cell (y - 1) x && !s.hitWhite then { s with hitWhite := true }
  else if s.hitWhite && !(g.cell (y - 1) x) then
    let s1 := { s with probes := s.probes ++ outProbes y x }
    if criticalOut g y x then
      { s1 with cellMap :=
          paintRight g.cols (y - 1) (paintLeft (y - 1) s1.cellMap (x - 1) x) (x + 1) g.cols }
    else s1
  else s

/-- One slice of the sweep (source lines 77-193): count segments, fire an IN
or OUT event if the count changed, and remember the new count. -/
def sweepRow (g : Grid) (st : Nat × Grid × List (Int × Int)) (y : Nat) :
    Nat × Grid × List (Int × Int) :=
  let n := countSegments g y
  if st.1 < n then
    let s := (List.range g.cols).foldl (inStep g y) ⟨false, st.2.1, st.2.2⟩
    (n, s.cellMap, s.probes)
  else if n < st.1 then
    let s := (List.range g.cols).foldl (outStep g y) ⟨false, st.2.1, st.2.2⟩
    (n, s.cellMap, s.probes)
  else (n, st.2.1, st.2.2)

/-- The sweep-line decomposer (source lines 45-193): returns the painted cell
map together with the list of pixels the critical-point stencils read. -/
def decomposeAux (g : Grid) : Grid × List (Int × Int) :=
  let s0 := initScan g
  let fin := ((List.range g.rows).drop (s0.yStart + 1)).foldl (sweepRow g) (s0.nStart, g, [])
  (fin.2.1, fin.2.2)

/-- The decomposed map handed to the contour extractor. -/
def decompose (g : Grid) : Grid := (decomposeAux g).1

/-- Starting row of the boustrophedon lines of one cell (source lines
267-271): if the bounding-box height fits twice the floored fitting-circle
radius, start in the middle, otherwise at `(min_y - 1) + R`. -/
def startY (minY maxY : Int) (R : Nat) : Int :=
  if maxY - minY ≤ 2 * (R : Int) then minY + (maxY - minY) / 2
  else (minY - 1) + R

/-- The rows visited by the do-while loop of source lines 272-313: emit the
current row, add `R`, continue while the new row is at most `max_y`.  The
fuel argument only bounds the recursion; with `1 ≤ R` it never runs out. -/
def sweepYsGo (maxY : Int) (R : Nat) : Int → Nat → List Int
  | y, 0 => [y]
  | y, fuel + 1 => y :: (if y + R ≤ maxY then sweepYsGo maxY R (y + R) fuel else [])

/-- All rows on which the line generator emits a horizontal line. -/
def sweepYs (minY maxY : Int) (R : Nat) : List Int :=
  sweepYsGo maxY R (startY minY maxY R) (maxY - startY minY maxY R).toNat

/-- Left-edge scan (source lines 278-290): starting at `dx = min_x`, advance
right until the first FREE pixel of `room_map` in row `y`; the loop stops
once the incremented `dx` reaches `cols`. -/
def scanRightGo (g : Grid) (y : Int) : Nat → Nat → Option Nat
  | _, 0 => none
  | dx, fuel + 1 =>
    if g.cellI y dx then some dx
    else if dx + 1 < g.cols then scanRightGo g y (dx + 1) fuel
    else none

/-- Right-edge scan (source lines 292-304): starting at `dx = max_x`, walk
left until the first FREE pixel; the loop stops once the decremented `dx`
reaches 0, so column 0 is never examined after the first step. -/
def scanLeftGo (g : Grid) (y : Int) : Nat → Nat → Option Nat
  | _, 0 => none
  | dx, fuel + 1 =>
    if g.cellI y dx then some dx
    else if 2 ≤ dx then scanLeftGo g y (dx - 1) fuel
    else none

/-- A boustrophedon horizontal line (`boustrophedonHorizontalLine`): its left
and right edge points. -/
structure HLine where
  leftE : Int × Int
  rightE : Int × Int
deriving DecidableEq, Repr

/-- Build the horizontal line of row `y` (source lines 274-309).  When a scan
fails the corresponding edge keeps the default-constructed point `(0, 0)`;
the line is stored regardless. -/
def hline (g : Grid) (R minX maxX : Nat) (y : Int) : HLine :=
  { leftE :=
      match scanRightGo g y minX g.cols with
      | some dx => ((dx : Int) + R, y)
      | none => (0, 0)
    rightE :=
      match scanLeftGo g y maxX (maxX + 1) with
      | some dx => ((dx : Int) - R, y)
      | none => (0, 0) }

/-- The do-while loop of source lines 272-313, collecting one line per
visited row into `path_lines`. -/
def cellPathLinesGo (g : Grid) (R minX maxX : Nat) (maxY : Int) : Int → Nat → List HLine
  | y, 0 => [hline g R minX maxX y]
  | y, fuel + 1 =>
    hline g R minX maxX y ::
      (if y + R ≤ maxY then cellPathLinesGo g R minX maxX maxY (y + R) fuel else [])

/-- All horizontal lines generated for one cell with bounding box
`(min_x, max_x, min_y, max_y)` and floored fitting-circle radius `R`. -/
def cellPathLines (g : Grid) (R minX maxX : Nat) (minY maxY : Int) : List HLine :=
  cellPathLinesGo g R minX maxX maxY (startY minY maxY R) (maxY - startY minY maxY R).toNat

/-- Entry-corner selection of the intra-cell path stitcher (source lines
327-342).  `d1 d2 d3 d4` are the oracle distances from the current robot
position to `L[0].left`, `L[0].right`, `L[k-1].left`, `L[k-1].right`.  The
first component is `start_from_upper_path` (`true` = iterate the lines
forward, i.e. top to bottom), the second is `left` (`true` = the first line
is traced from its left edge towards its right edge). -/
def entrySelect (d1 d2 d3 d4 : Rat) : Bool × Bool :=
  if (d3 < d1 ∧ d3 < d2) ∨ (d4 < d1 ∧ d4 < d2) then
    (false, if d4 < d3 then false else true)
  else
    (true, if d2 < d1 then false else true)

/-- The sequence of `left` flags over the per-line loop of the stitcher
(source lines 346-487): each iteration traces the line in the direction of
the current flag and then flips it. -/
def stitchDirs : Nat → Bool → List Bool
  | 0, _ => []
  | n + 1, left => left :: stitchDirs n (!left)

/-- Boolean check that consecutive entries of a list differ (serpentine
traversal order). -/
def alternates : List Bool → Bool
  | [] => true
  | [_] => true
  | a :: b :: r => (a != b) && alternates (b :: r)

/-- `min_index` computation (source lines 226-239): scan all cells and keep
the index of the last cell whose polygon contains the starting point
(`pointPolygonTest(...) >= 0`, boundary included); default 0.  The list
holds the oracle's containment answers in cell order. -/
def minIndexGo : List Bool → Nat → Nat → Nat
  | [], _, acc => acc
  | b :: rest, i, acc => minIndexGo rest (i + 1) (if b then i else acc)

/-- Index of the start cell of the tour. -/
def minIndex (contains : List Bool) : Nat := minIndexGo contains 0 0

/-- The optimal visiting order (source lines 242-243): the TSP oracle is
asked for a tour starting at `min_index`. -/
def visitOrder (tsp : Nat → List Nat) (contains : List Bool) : List Nat :=
  tsp (minIndex contains)

/-- A pose `(x, y, theta)`; coordinates are exact rationals standing for the
source's floating-point values. -/
structure Pose where
  px : Rat
  py : Rat
  theta : Rat
deriving DecidableEq, Repr

/-- The per-cell loop of phase III (source lines 250-488), threading the
robot position from cell to cell; the per-cell stitcher is passed as a
parameter because it consumes the polygon accessors and the A* oracle that
are not part of the provided source. -/
def cellLoop {α : Type} (stitch : α → Int × Int → List (Int × Int) × (Int × Int))
    (cells : List α) (order : List Nat) (start : Int × Int) : List (Int × Int) :=
  ((List.range cells.length).foldl
    (fun (st : List (Int × Int) × (Int × Int)) i =>
      match cells.get? (order.getD i 0) with
      | some c =>
        let r := stitch c st.2
        (st.1 ++ r.1, r.2)
      | none => st)
    ([], start)).1

/-- The orientation annotator (source lines 500-517): each point becomes a
pose whose angle points at the next point, cyclically.  The `atan2` oracle is
a parameter (floating-point trigonometry). -/
def posesFromPath (angleOf : (Int × Int) → (Int × Int) → Rat)
    (pts : List (Int × Int)) : List Pose :=
  (List.range pts.length).map (fun i =>
    let cur := pts.getD i (0, 0)
    let nxt := pts.getD ((i + 1) % pts.length) (0, 0)
    ⟨(cur.1 : Rat), (cur.2 : Rat), angleOf cur nxt⟩)

/-- The footprint-mode conversion of one pose (source lines 526-530):
`(x * resolution + origin.x, y * resolution + origin.y, theta)`. -/
def footprintTransform (res ox oy : Rat) (p : Pose) : Pose :=
  ⟨p.px * res + ox, p.py * res + oy, p.theta⟩

/-- Modelled from the spec: the FOV-mode footprint adapter (`mapPath`, which
is declared in the header but not part of the provided source) maps each
field-of-view pose to at most one robot body pose, threading the previous
body pose for the fallback search on the offset circle; a pose for which no
FREE body point exists is dropped. -/
def mapPathModel (bodyPose : Rat × Rat → Pose → Pose → Option Pose)
    (offset : Rat × Rat) : Pose → List Pose → List Pose
  | _, [] => []
  | prev, p :: rest =>
    match bodyPose offset prev p with
    | some q => q :: mapPathModel bodyPose offset q rest
    | none => mapPathModel bodyPose offset prev rest

/-- The tail of `getExplorationPath` (source lines 521-538): in footprint
mode every FOV pose is scaled to world coordinates and the robot-to-FOV
offset is never consulted; otherwise the poses go through the footprint
adapter. -/
def finalPath (planForFootprint : Bool)
    (mapPathFn : Rat × Rat → List Pose → List Pose)
    (res ox oy : Rat) (offset : Rat × Rat) (fowPoses : List Pose) : List Pose :=
  if planForFootprint then fowPoses.map (footprintTransform res ox oy)
  else mapPathFn offset fowPoses

/-- The whole `getExplorationPath` pipeline: decompose the map, extract the
cells (external contour oracle), pick the start cell, order the cells
(external TSP oracle), stitch the per-cell boustrophedon paths, annotate
orientations and adapt for the footprint. -/
def getExplorationPath {α : Type} (extract : Grid → List α)
    (containsStart : α → Bool) (tsp : Nat → List Nat)
    (stitch : α → Int × Int → List (Int × Int) × (Int × Int))
    (angleOf : (Int × Int) → (Int × Int) → Rat) (planForFootprint : Bool)
    (mapPathFn : Rat × Rat → List Pose → List Pose)
    (res ox oy : Rat) (offset : Rat × Rat) (g : Grid) (start : Int × Int) :
    List Pose :=
  let cells := extract (decompose g)
  let order := visitOrder tsp (cells.map containsStart)
  let pts := cellLoop stitch cells order start
  let poses := posesFromPath angleOf pts
  finalPath planForFootprint mapPathFn res ox oy offset poses

/-- The 50x4 all-FREE corridor of the spec's scenario 3. -/
def corridorG : Grid := List.replicate 4 (List.replicate 50 true)

/-- The 100x100 all-FREE rectangle of the spec's boundary test. -/
def rect100G : Grid := List.replicate 100 (List.replicate 100 true)

/-- A 3-wide, 5-tall map whose middle row is entirely OBSTACLE. -/
def blockedRowG : Grid :=
  [[true, true, true], [true, true, true], [false, false, false],
   [true, true, true], [true, true, true]]

/-- A 2x2 map whose bottom-right pixel is the only OBSTACLE. -/
def cornerObstacleG : Grid := [[true, true], [true, false]]

/-- If the next row would pass `max_y`, the do-while loop emits only the
current row. -/
theorem sweepYsGo_stop (maxY : Int) (R : Nat) (y : Int) (fuel : Nat)
    (h : maxY < y + R) : sweepYsGo maxY R y fuel = [y] := by
  cases fuel with
  | zero => rfl
  | succ n => simp [sweepYsGo, if_neg (not_le.mpr h)]

/-- If the next row is still within `max_y`, the do-while loop emits the
current row and continues there. -/
theorem sweepYsGo_step (maxY : Int) (R : Nat) (y : Int) (fuel : Nat)
    (h : y + R ≤ maxY) :
    sweepYsGo maxY R y (fuel + 1) = y :: sweepYsGo maxY R (y + R) fuel := by
  simp [sweepYsGo, if_pos h]

/-- C1 counterexample: the 50x4 all-FREE corridor with R = 2 satisfies the
claim's premise `max_y - min_y ≤ 2R` (bounding box rows 0..3), yet the line
generator emits two horizontal lines (rows 1 and 3), not exactly one. -/
theorem corridor_two_lines_cx :
    ((3 : Int) - 0 ≤ 2 * ((2 : Nat) : Int)) ∧
      (cellPathLines corridorG 2 0 49 0 3).length = 2 ∧
      (cellPathLines corridorG 2 0 49 0 3).map (fun l => l.leftE) =
        [(2, 1), (2, 3)] := by
  refine ⟨by decide, by decide, by decide⟩

/-- C1 (amended): when the bounding-box height `max_y - min_y` is at most
`2R`, the first line is placed at `y = min_y + (max_y - min_y)/2`, and a
second line at `y + R` is additionally emitted exactly when `y + R ≤ max_y`;
only in the remaining case is a single line emitted. -/
theorem small_cell_line_count (minY maxY : Int) (R : Nat) (hle : minY ≤ maxY)
    (hsmall : maxY - minY ≤ 2 * (R : Int)) (hR : 1 ≤ R) :
    sweepYs minY maxY R =
      if minY + (maxY - minY) / 2 + R ≤ maxY then
        [minY + (maxY - minY) / 2, minY + (maxY - minY) / 2 + R]
      else [minY + (maxY - minY) / 2] := by
  have hs : startY minY maxY R = minY + (maxY - minY) / 2 := if_pos hsmall
  rw [sweepYs, hs]
  by_cases hc : minY + (maxY - minY) / 2 + R ≤ maxY
  · rw [if_pos hc]
    have hfuel : ∃ k, (maxY - (minY + (maxY - minY) / 2)).toNat = k + 1 := by
      refine ⟨(maxY - (minY + (maxY - minY) / 2)).toNat - 1, ?_⟩
      have hRz : (1 : Int) ≤ (R : Int) := by exact_mod_cast hR
      omega
    obtain ⟨k, hk⟩ := hfuel
    rw [hk, sweepYsGo_step _ _ _ _ hc, sweepYsGo_stop]
    have hRz : (1 : Int) ≤ (R : Int) := by exact_mod_cast hR
    omega
  · rw [if_neg hc, sweepYsGo_stop]
    omega

/-- Witness for `small_cell_line_count` at the corridor bounding box
(min_y = 0, max_y = 3, R = 2). -/
theorem small_cell_line_count_w :
    ((0 : Int) ≤ 3 ∧ (3 : Int) - 0 ≤ 2 * ((2 : Nat) : Int) ∧ 1 ≤ 2) ∧
      sweepYs 0 3 2 = [1, 3] := by
  refine ⟨by decide, ?_⟩
  have h := small_cell_line_count 0 3 2 (by decide) (by decide) (by decide)
  rw [h]
  decide

/-- C2 counterexample: on `blockedRowG` (rows 0..4, middle row entirely
OBSTACLE, R = 1) both edge scans of row 2 fail, yet a line is still pushed
for that row: five lines come out, the third being the default
`((0,0),(0,0))`.  The claim says the row should contribute no line. -/
theorem failed_scan_line_still_added_cx :
    scanRightGo blockedRowG 2 0 (Grid.cols blockedRowG) = none ∧
      scanLeftGo blockedRowG 2 2 3 = none ∧
      (cellPathLines blockedRowG 1 0 2 0 4).length = 5 ∧
      (cellPathLines blockedRowG 1 0 2 0 4).get? 2 = some ⟨(0, 0), (0, 0)⟩ := by
  refine ⟨by decide, by decide, by decide, by decide⟩

/-- The collecting loop emits exactly the per-row lines of the visited rows. -/
theorem cellPathLinesGo_eq_map (g : Grid) (R minX maxX : Nat) (maxY : Int) :
    ∀ (fuel : Nat) (y : Int),
      cellPathLinesGo g R minX maxX maxY y fuel =
        (sweepYsGo maxY R y fuel).map (hline g R minX maxX) := by
  intro fuel
  induction fuel with
  | zero => intro y; rfl
  | succ n ih =>
    intro y
    simp only [cellPathLinesGo, sweepYsGo]
    by_cases h : y + R ≤ maxY
    · rw [if_pos h, if_pos h, List.map_cons, ih]
    · rw [if_neg h, if_neg h]
      rfl

/-- C2 (amended): no candidate row is ever skipped: the generator stores
exactly one line per visited row, and when an edge scan finds no FREE pixel
the corresponding edge keeps the default point `(0, 0)`. -/
theorem line_per_row_never_skipped (g : Grid) (R minX maxX : Nat)
    (minY maxY : Int) :
    cellPathLines g R minX maxX minY maxY =
      (sweepYs minY maxY R).map (hline g R minX maxX) ∧
      (∀ y : Int, scanRightGo g y minX g.cols = none →
        (hline g R minX maxX y).leftE = (0, 0)) ∧
      (∀ y : Int, scanLeftGo g y maxX (maxX + 1) = none →
        (hline g R minX maxX y).rightE = (0, 0)) := by
  refine ⟨cellPathLinesGo_eq_map g R minX maxX maxY _ _, ?_, ?_⟩
  · intro y h
    simp [hline, h]
  · intro y h
    simp [hline, h]

/-- Witness for `line_per_row_never_skipped` on `blockedRowG`, row 2. -/
theorem line_per_row_never_skipped_w :
    (scanRightGo blockedRowG 2 0 (Grid.cols blockedRowG) = none ∧
        scanLeftGo blockedRowG 2 2 3 = none) ∧
      cellPathLines blockedRowG 1 0 2 0 4 =
        (sweepYs 0 4 1).map (hline blockedRowG 1 0 2) ∧
      (hline blockedRowG 1 0 2 2).leftE = (0, 0) ∧
      (hline blockedRowG 1 0 2 2).rightE = (0, 0) := by
  refine ⟨⟨by decide, by decide⟩,
    (line_per_row_never_skipped blockedRowG 1 0 2 0 4).1,
    (line_per_row_never_skipped blockedRowG 1 0 2 0 4).2.1 2 (by decide),
    (line_per_row_never_skipped blockedRowG 1 0 2 0 4).2.2 2 (by decide)⟩

/-- C6 counterexample: on the 100x100 all-FREE rectangle with R = 5
(bounding box rows 0..99) the generator emits 20 sweep lines
(rows 4, 9, ..., 99), not ceil((100-2*5)/5)+1 = 19. -/
theorem rect100_twenty_lines_cx :
    (cellPathLines rect100G 5 0 99 0 99).length = 20 ∧
      (cellPathLines rect100G 5 0 99 0 99).length ≠ 19 := by
  refine ⟨by decide, by decide⟩

/-- C6 (amended): the 100x100 all-FREE rectangle with R = 5 yields exactly
20 sweep lines, at rows 4, 9, ..., 99, and the stitcher traverses them in a
serpentine order: the traced direction flips between every two consecutive
lines, whichever side the first line starts on. -/
theorem rect100_line_count_serpentine :
    (cellPathLines rect100G 5 0 99 0 99).length = 20 ∧
      sweepYs 0 99 5 = (List.range 20).map (fun k => 4 + 5 * (k : Int)) ∧
      (∀ l : Bool, alternates (stitchDirs 20 l) = true) := by
  refine ⟨by decide, by decide, ?_⟩
  intro l
  cases l <;> decide

/-- C7: when exactly one of the four candidate entry corners has the
strictly smallest oracle distance, the stitcher starts at that corner:
`start_from_upper_path` is true exactly when a corner of `L[0]` wins, and
`left` is true exactly when a left endpoint wins. -/
theorem entry_corner_selection (d1 d2 d3 d4 : Rat) :
    (d1 < d2 → d1 < d3 → d1 < d4 → entrySelect d1 d2 d3 d4 = (true, true)) ∧
      (d2 < d1 → d2 < d3 → d2 < d4 → entrySelect d1 d2 d3 d4 = (true, false)) ∧
      (d3 < d1 → d3 < d2 → d3 < d4 → entrySelect d1 d2 d3 d4 = (false, true)) ∧
      (d4 < d1 → d4 < d2 → d4 < d3 → entrySelect d1 d2 d3 d4 = (false, false)) := by
  refine ⟨?_, ?_, ?_, ?_⟩ <;> intro h1 h2 h3 <;> rw [entrySelect]
  · rw [if_neg, if_neg (not_lt.mpr h1.le)]
    rintro (⟨a, b⟩ | ⟨a, b⟩) <;> linarith
  · rw [if_neg, if_pos h1]
    rintro (⟨a, b⟩ | ⟨a, b⟩) <;> linarith
  · rw [if_pos (Or.inl ⟨h1, h2⟩), if_neg (not_lt.mpr h3.le)]
  · rw [if_pos (Or.inr ⟨h1, h2⟩), if_pos h3]

/-- Witness for `entry_corner_selection`: with distances (1, 2, 3, 4) the
upper-left corner wins and the stitcher goes top-to-bottom, left-to-right. -/
theorem entry_corner_selection_w :
    ((1 : Rat) < 2 ∧ (1 : Rat) < 3 ∧ (1 : Rat) < 4) ∧
      entrySelect 1 2 3 4 = (true, true) :=
  ⟨⟨by norm_num, by norm_num, by norm_num⟩,
    (entry_corner_selection 1 2 3 4).1 (by norm_num) (by norm_num) (by norm_num)⟩

/-- C9: in footprint mode the output is the pointwise world-coordinate
conversion `(x * resolution + origin.x, y * resolution + origin.y, theta)`
of the FOV poses; neither the robot-to-FOV offset vector nor the footprint
adapter influence it.  A grid pose (100, 80) with resolution 0.05 = 1/20 and
origin (-2.5, -2.5) becomes the world pose (2.5, 1.5) with the same angle. -/
theorem footprint_mode_affine (res ox oy : Rat) (v w : Rat × Rat)
    (f h : Rat × Rat → List Pose → List Pose) (poses : List Pose) :
    finalPath true f res ox oy v poses = finalPath true h res ox oy w poses ∧
      (∀ i : Nat, (finalPath true f res ox oy v poses).get? i =
        (poses.get? i).map (fun p => ⟨p.px * res + ox, p.py * res + oy, p.theta⟩)) ∧
      (∀ θ : Rat, footprintTransform (1 / 20) (-(5 / 2)) (-(5 / 2)) ⟨100, 80, θ⟩ =
        ⟨5 / 2, 3 / 2, θ⟩) := by
  refine ⟨rfl, ?_, ?_⟩
  · intro i
    show (poses.map (footprintTransform res ox oy)).get? i = _
    simp only [List.get?_eq_getElem?, List.getElem?_map]
    rcases poses[i]? with _ | p <;> rfl
  · intro θ
    simp only [footprintTransform]
    norm_num

/-- C10: the 1x3 IN-event stencil reads out of bounds.  On the 2x2 map
`[[FREE, FREE], [FREE, OBSTACLE]]` (W = 2), the IN event of row 1 tests the
obstacle at the last column x = 1 and probes row 0 at column x+1 = 2 = W,
which is outside the map; the claim that every probed column satisfies
`0 ≤ column < W` is violated by the code. -/
theorem stencil_out_of_bounds_probe :
    ((0 : Int), (2 : Int)) ∈ (decomposeAux cornerObstacleG).2 ∧
      Grid.cols cornerObstacleG = 2 ∧
      ¬ (∀ p ∈ (decomposeAux cornerObstacleG).2,
          0 ≤ p.2 ∧ p.2 < (Grid.cols cornerObstacleG : Int)) := by
  refine ⟨by decide, by decide, by decide⟩

/-- If no cell contains the start, the scan keeps its accumulator. -/
theorem minIndexGo_all_false :
    ∀ (l : List Bool) (i acc : Nat), l.any (fun b => b) = false →
      minIndexGo l i acc = acc := by
  intro l
  induction l with
  | nil => intro i acc _; rfl
  | cons b rest ih =>
    intro i acc h
    simp only [List.any_cons, Bool.or_eq_false_iff] at h
    simp only [minIndexGo, h.1, if_neg, Bool.false_eq_true, not_false_iff, ite_false]
    exact ih (i + 1) acc h.2

/-- If some cell contains the start, the scan returns an index (relative to
`i`) of a containing cell. -/
theorem minIndexGo_hit :
    ∀ (l : List Bool) (i acc : Nat), l.any (fun b => b) = true →
      ∃ k, minIndexGo l i acc = i + k ∧ l.getD k false = true := by
  intro l
  induction l with
  | nil => intro i acc h; simp at h
  | cons b rest ih =>
    intro i acc h
    by_cases hr : rest.any (fun b => b) = true
    · obtain ⟨k, hk, hget⟩ := ih (i + 1) (if b then i else acc) hr
      refine ⟨k + 1, ?_, ?_⟩
      · rw [minIndexGo, hk]
        omega
      · simpa using hget
    · have hb : b = true := by
        simp only [List.any_cons] at h
        rcases Bool.or_eq_true_iff.mp h with h1 | h2
        · exact h1
        · exact absurd h2 hr
      refine ⟨0, ?_, by simp [hb]⟩
      rw [minIndexGo, hb, if_pos rfl,
        minIndexGo_all_false rest (i + 1) i (by simpa using hr)]
      omega

/-- C3: the tour returned by the TSP oracle starts at `min_index`; when at
least one cell's polygon contains the starting position (point-in-polygon
test with boundary counted inside), `min_index` is the index of such a cell,
and when none does, `min_index` is 0. -/
theorem tour_starts_in_containing_cell (contains : List Bool)
    (tsp : Nat → List Nat) (htsp : ∀ s, (tsp s).head? = some s) :
    (contains.any (fun b => b) = true →
        contains.getD (minIndex contains) false = true) ∧
      (contains.any (fun b => b) = false → minIndex contains = 0) ∧
      (visitOrder tsp contains).head? = some (minIndex contains) := by
  refine ⟨?_, ?_, htsp _⟩
  · intro h
    obtain ⟨k, hk, hget⟩ := minIndexGo_hit contains 0 0 h
    rw [minIndex, hk]
    simpa using hget
  · intro h
    exact minIndexGo_all_false contains 0 0 h

/-- Witness for `tour_starts_in_containing_cell`: with containment answers
`[false, true]` and an oracle returning the identity tour, the tour starts
at cell 1, which contains the start. -/
theorem tour_starts_in_containing_cell_w :
    ([false, true].any (fun b => b) = true) ∧
      ([false, true].getD (minIndex [false, true]) false = true ∧
        (visitOrder (fun s => [s, 0]) [false, true]).head? =
          some (minIndex [false, true])) :=
  ⟨by decide,
    (tour_starts_in_containing_cell [false, true] (fun s => [s, 0])
        (fun s => rfl)).1 (by decide),
    (tour_starts_in_containing_cell [false, true] (fun s => [s, 0])
        (fun s => rfl)).2.2⟩

/-- A leading OBSTACLE pixel contributes one run on top of the runs of the
suffix that starts at the next FREE pixel. -/
theorem countFalseRuns_false_cons (r : List Bool) :
    countFalseRuns (false :: r) =
      countFalseRuns (r.dropWhile (fun b => !b)) + 1 := by
  induction r with
  | nil => rfl
  | cons b r' ih =>
    cases b with
    | true => rfl
    | false =>
      rw [countFalseRuns, ih]
      simp [List.dropWhile]

/-- Once `found` is set, the initialisation fold keeps `found` and `y_start`
and adds to `n_start` one count per obstacle run it enters (a run already in
progress, `obstacle = true`, is not recounted). -/
theorem initRow_found_phase (y : Nat) :
    ∀ (q : List Bool) (s : InitState), s.found = true →
      (q.foldl (initCell y) s).found = true ∧
        (q.foldl (initCell y) s).yStart = s.yStart ∧
        (q.foldl (initCell y) s).nStart = s.nStart +
          (if s.obstacle then countFalseRuns (q.dropWhile (fun b => !b))
           else countFalseRuns q) := by
  intro q
  induction q with
  | nil =>
    intro s hs
    refine ⟨hs, rfl, ?_⟩
    cases hob : s.obstacle <;> simp [countFalseRuns, List.dropWhile]
  | cons b rest ih =>
    intro s hs
    rcases hob : s.obstacle with _ | _ <;> cases b
    · have hstep : initCell y s false = { s with nStart := s.nStart + 1, obstacle := true } := by
        simp [initCell, hs, hob]
      rw [List.foldl_cons, hstep]
      obtain ⟨h1, h2, h3⟩ := ih { s with nStart := s.nStart + 1, obstacle := true } (by simp [hs])
      refine ⟨h1, h2, ?_⟩
      rw [h3]
      simp [countFalseRuns_false_cons]
      omega
    · have hstep : initCell y s true = s := by
        simp [initCell, hs, hob]
      rw [List.foldl_cons, hstep]
      obtain ⟨h1, h2, h3⟩ := ih s hs
      refine ⟨h1, h2, ?_⟩
      rw [h3]
      simp [hob, countFalseRuns]
    · have hstep : initCell y s false = s := by
        simp [initCell, hs, hob]
      rw [List.foldl_cons, hstep]
      obtain ⟨h1, h2, h3⟩ := ih s hs
      refine ⟨h1, h2, ?_⟩
      rw [h3]
      simp [hob, List.dropWhile]
    · have hstep : initCell y s true = { s with obstacle := false } := by
        simp [initCell, hs, hob]
      rw [List.foldl_cons, hstep]
      obtain ⟨h1, h2, h3⟩ := ih { s with obstacle := false } (by simp [hs])
      refine ⟨h1, h2, ?_⟩
      rw [h3]
      simp [List.dropWhile, countFalseRuns]

/-- A row without any FREE pixel leaves the initialisation state unchanged
while `found` is still false. -/
theorem initRow_no_free (y : Nat) :
    ∀ (row : List Bool) (s : InitState), s.found = false →
      row.any (fun b => b) = false → initRow s y row = s := by
  intro row
  induction row with
  | nil => intro s _ _; rfl
  | cons b rest ih =>
    intro s hs h
    simp only [List.any_cons, Bool.or_eq_false_iff] at h
    have hstep : initCell y s b = s := by
      simp [initCell, hs, h.1]
    rw [initRow, List.foldl_cons, hstep]
    exact ih s hs h.2

/-- A row containing a FREE pixel makes the initialisation scan stop there:
`found` is set, `y_start` becomes that row's index, and `n_start` counts the
obstacle runs of the row at or after its first FREE pixel. -/
theorem initRow_first_free (y : Nat) :
    ∀ (row : List Bool) (s : InitState), s.found = false → s.obstacle = false →
      row.any (fun b => b) = true →
      (initRow s y row).found = true ∧ (initRow s y row).yStart = y ∧
        (initRow s y row).nStart =
          s.nStart + countFalseRuns (row.dropWhile (fun b => !b)) := by
  intro row
  induction row with
  | nil => intro s _ _ h; simp at h
  | cons b rest ih =>
    intro s hs hob h
    cases b with
    | false =>
      have hstep : initCell y s false = s := by
        simp [initCell, hs]
      rw [initRow, List.foldl_cons, hstep]
      simp only [List.any_cons, Bool.false_or] at h
      have := ih s hs hob h
      simpa [List.dropWhile] using this
    | true =>
      have hstep : initCell y s true = { s with yStart := y, found := true } := by
        simp [initCell, hs]
      rw [initRow, List.foldl_cons, hstep]
      obtain ⟨h1, h2, h3⟩ :=
        initRow_found_phase y rest { s with yStart := y, found := true } (by simp)
      refine ⟨h1, h2, ?_⟩
      rw [h3]
      simp [hob, List.dropWhile, countFalseRuns]

/-- Characterisation of the whole initialisation row loop, run over the rows
numbered from `n`: it stops at the first row containing a FREE pixel. -/
theorem initGo_enumFrom :
    ∀ (l : List (List Bool)) (n : Nat) (s : InitState), s.found = false →
      s.obstacle = false → (∃ row ∈ l, row.any (fun b => b) = true) →
      ∃ k, (initGo (List.enumFrom n l) s).found = true ∧
        (initGo (List.enumFrom n l) s).yStart = n + k ∧
        (initGo (List.enumFrom n l) s).nStart =
          s.nStart + countFalseRuns ((l.getD k []).dropWhile (fun b => !b)) ∧
        (l.getD k []).any (fun b => b) = true ∧
        (∀ j, j < k → (l.getD j []).any (fun b => b) = false) := by
  intro l
  induction l with
  | nil =>
    intro n s _ _ h
    simp at h
  | cons row rest ih =>
    intro n s hs hob h
    by_cases hrow : row.any (fun b => b) = true
    · obtain ⟨h1, h2, h3⟩ := initRow_first_free n row s hs hob hrow
      have hstop : initGo (List.enumFrom n (row :: rest)) s = initRow s n row := by
        simp [List.enumFrom, initGo, h1]
      refine ⟨0, ?_, ?_, ?_, ?_, ?_⟩
      · rw [hstop]; exact h1
      · rw [hstop, h2]; omega
      · rw [hstop, h3]; rfl
      · simpa using hrow
      · intro j hj; omega
    · have hrow' : row.any (fun b => b) = false := by
        cases hx : row.any (fun b => b) with
        | true => exact absurd hx hrow
        | false => rfl
      have heq : initRow s n row = s := initRow_no_free n row s hs hrow'
      have hrest : ∃ r ∈ rest, r.any (fun b => b) = true := by
        obtain ⟨r, hr, hrt⟩ := h
        rcases List.mem_cons.mp hr with rfl | hmem
        · exact absurd hrt hrow
        · exact ⟨r, hmem, hrt⟩
      obtain ⟨k, h1, h2, h3, h4, h5⟩ := ih (n + 1) s hs hob hrest
      refine ⟨k + 1, ?_, ?_, ?_, ?_, ?_⟩
      · simpa [List.enumFrom, initGo, heq, hs] using h1
      · have : initGo (List.enumFrom n (row :: rest)) s =
            initGo (List.enumFrom (n + 1) rest) s := by
          simp [List.enumFrom, initGo, heq, hs]
        rw [this, h2]
        omega
      · have : initGo (List.enumFrom n (row :: rest)) s =
            initGo (List.enumFrom (n + 1) rest) s := by
          simp [List.enumFrom, initGo, heq, hs]
        rw [this, h3]
        simp
      · simpa using h4
      · intro j hj
        cases j with
        | zero => simpa using hrow'
        | succ j' => simpa using h5 j' (by omega)

/-- A grid with a FREE pixel somewhere has a row (an element of the row
list) containing a FREE pixel. -/
theorem rowHasFree_exists_mem (g : Grid) (h : ∃ y, rowHasFree g y = true) :
    ∃ row ∈ g, row.any (fun b => b) = true := by
  obtain ⟨y, hy⟩ := h
  rw [rowHasFree] at hy
  by_cases hlt : y < g.length
  · refine ⟨g.getD y [], ?_, hy⟩
    rw [List.getD_eq_getElem?_getD, List.getElem?_eq_getElem hlt]
    exact List.getElem_mem hlt
  · rw [List.getD_eq_getElem?_getD, List.getElem?_eq_none (by omega)] at hy
    simp at hy

/-- C5 counterexample: on the one-row grid `[[FREE, OBSTACLE]]` the scan
sets `y_start = 0` and `n_start = 1`, counting the trailing obstacle run,
whereas the number of obstacle runs strictly between the first and last
FREE pixels of that row is 0. -/
theorem trailing_run_counted_cx :
    (initScan [[true, false]]).yStart = 0 ∧
      (initScan [[true, false]]).nStart = 1 ∧
      runsBetween (([[true, false]] : Grid).getD 0 []) = 0 := by
  refine ⟨by decide, by decide, by decide⟩

/-- C5 (amended): `y_start` is the smallest row index whose row contains a
FREE pixel, and `n_start` counts the maximal obstacle runs of row `y_start`
that start after its first FREE pixel - including a trailing run after the
last FREE pixel, not only the runs strictly between the first and last FREE
pixels. -/
theorem init_scan_least_row_and_runs (g : Grid)
    (h : ∃ y, rowHasFree g y = true) :
    (initScan g).found = true ∧
      rowHasFree g (initScan g).yStart = true ∧
      (∀ y, y < (initScan g).yStart → rowHasFree g y = false) ∧
      (initScan g).nStart =
        countFalseRuns ((g.getD (initScan g).yStart []).dropWhile (fun b => !b)) := by
  have hmem := rowHasFree_exists_mem g h
  obtain ⟨k, h1, h2, h3, h4, h5⟩ :=
    initGo_enumFrom g 0 ⟨0, 0, false, false⟩ rfl rfl hmem
  rw [show initScan g = initGo (List.enumFrom 0 g) ⟨0, 0, false, false⟩ from rfl]
  refine ⟨h1, ?_, ?_, ?_⟩
  · rw [h2, rowHasFree]
    simpa using h4
  · intro y hy
    rw [h2] at hy
    rw [rowHasFree]
    exact h5 y (by omega)
  · rw [h3, h2]
    simp

/-- Witness for `init_scan_least_row_and_runs` on the grid
`[[OBSTACLE, OBSTACLE], [FREE, OBSTACLE]]`. -/
theorem init_scan_least_row_and_runs_w :
    rowHasFree [[false, false], [true, false]] 1 = true ∧
      (initScan [[false, false], [true, false]]).found = true ∧
      (initScan [[false, false], [true, false]]).nStart =
        countFalseRuns
          ((([[false, false], [true, false]] : Grid).getD
              (initScan [[false, false], [true, false]]).yStart []).dropWhile
            (fun b => !b)) :=
  ⟨by decide,
    (init_scan_least_row_and_runs [[false, false], [true, false]]
        ⟨1, by decide⟩).1,
    (init_scan_least_row_and_runs [[false, false], [true, false]]
        ⟨1, by decide⟩).2.2.2⟩

/-- Reading an updated list: the written value at the written index (when in
range), the old value elsewhere. -/
theorem getD_set_split {α : Type} (l : List α) (n m : Nat) (a d : α) :
    (l.set n a).getD m d = if n = m ∧ n < l.length then a else l.getD m d := by
  rw [List.getD_eq_getElem?_getD, List.getElem?_set, List.getD_eq_getElem?_getD]
  by_cases h1 : n = m
  · subst h1
    by_cases h2 : n < l.length
    · simp [h2]
    · simp only [if_pos rfl, if_neg h2, Option.getD_none, h2, and_false, if_false]
      rw [List.getElem?_eq_none (by omega)]
      rfl
  · simp [h1]

/-- Writing OBSTACLE into the cell map can never turn a pixel FREE. -/
theorem cell_put_false_mono (cm : Grid) (y x a b : Nat)
    (h : (Grid.put cm y x false).cell a b = true) : cm.cell a b = true := by
  rw [Grid.put, Grid.cell, getD_set_split] at h
  by_cases hc : y = a ∧ y < cm.length
  · rw [if_pos hc] at h
    rw [getD_set_split] at h
    by_cases hc2 : x = b ∧ x < (cm.getD y []).length
    · rw [if_pos hc2] at h
      cases h
    · rw [if_neg hc2] at h
      rw [Grid.cell, ← hc.1]
      exact h
  · rw [if_neg hc] at h
    exact h

/-- The leftward separator painting only writes OBSTACLE. -/
theorem paintLeft_mono (y : Nat) :
    ∀ (fuel pos : Nat) (cm : Grid) (a b : Nat),
      (paintLeft y cm pos fuel).cell a b = true → cm.cell a b = true := by
  intro fuel
  induction fuel with
  | zero => intro pos cm a b h; exact h
  | succ n ih =>
    intro pos cm a b h
    rw [paintLeft] at h
    by_cases h1 : 0 < pos
    · rw [if_pos h1] at h
      by_cases h2 : cm.cell y pos = true
      · rw [if_pos h2] at h
        exact cell_put_false_mono cm y pos a b (ih (pos - 1) _ a b h)
      · rwa [if_neg h2] at h
    · rwa [if_neg h1] at h

/-- The rightward separator painting only writes OBSTACLE. -/
theorem paintRight_mono (cols y : Nat) :
    ∀ (fuel pos : Nat) (cm : Grid) (a b : Nat),
      (paintRight cols y cm pos fuel).cell a b = true → cm.cell a b = true := by
  intro fuel
  induction fuel with
  | zero => intro pos cm a b h; exact h
  | succ n ih =>
    intro pos cm a b h
    rw [paintRight] at h
    by_cases h1 : pos < cols
    · rw [if_pos h1] at h
      by_cases h2 : cm.cell y pos = true
      · rw [if_pos h2] at h
        exact cell_put_false_mono cm y pos a b (ih (pos + 1) _ a b h)
      · rwa [if_neg h2] at h
    · rwa [if_neg h1] at h

/-- One IN-event column never turns a cell-map pixel FREE. -/
theorem inStep_cellMap_mono (g : Grid) (y : Nat) (s : EventState) (x a b : Nat)
    (h : ((inStep g y s x).cellMap).cell a b = true) :
    s.cellMap.cell a b = true := by
  simp only [inStep] at h
  split_ifs at h with hc1 hc2 hc3
  · exact h
  · exact paintLeft_mono y x (x - 1) s.cellMap a b
      (paintRight_mono g.cols y g.cols (x + 1) _ a b h)
  · exact h
  · exact h

/-- One OUT-event column never turns a cell-map pixel FREE. -/
theorem outStep_cellMap_mono (g : Grid) (y : Nat) (s : EventState) (x a b : Nat)
    (h : ((outStep g y s x).cellMap).cell a b = true) :
    s.cellMap.cell a b = true := by
  simp only [outStep] at h
  split_ifs at h with hc1 hc2 hc3
  · exact h
  · exact paintLeft_mono (y - 1) x (x - 1) s.cellMap a b
      (paintRight_mono g.cols (y - 1) g.cols (x + 1) _ a b h)
  · exact h
  · exact h

/-- Folding a cell-map-monotone step over a column list stays monotone. -/
theorem foldl_cellMap_mono {step : EventState → Nat → EventState}
    (hstep : ∀ s x a b, ((step s x).cellMap).cell a b = true →
      s.cellMap.cell a b = true) :
    ∀ (l : List Nat) (s : EventState) (a b : Nat),
      ((l.foldl step s).cellMap).cell a b = true → s.cellMap.cell a b = true := by
  intro l
  induction l with
  | nil => intro s a b h; exact h
  | cons x rest ih =>
    intro s a b h
    exact hstep s x a b (ih (step s x) a b h)

/-- One sweep slice never turns a cell-map pixel FREE. -/
theorem sweepRow_mono (g : Grid) (st : Nat × Grid × List (Int × Int))
    (y a b : Nat) (h : ((sweepRow g st y).2.1).cell a b = true) :
    st.2.1.cell a b = true := by
  simp only [sweepRow] at h
  split_ifs at h
  · exact foldl_cellMap_mono (inStep_cellMap_mono g y) _ ⟨false, st.2.1, st.2.2⟩ a b h
  · exact foldl_cellMap_mono (outStep_cellMap_mono g y) _ ⟨false, st.2.1, st.2.2⟩ a b h
  · exact h

/-- The whole sweep never turns a cell-map pixel FREE. -/
theorem sweepFold_mono (g : Grid) :
    ∀ (ys : List Nat) (st : Nat × Grid × List (Int × Int)) (a b : Nat),
      (((ys.foldl (sweepRow g) st).2.1).cell a b = true) →
        st.2.1.cell a b = true := by
  intro ys
  induction ys with
  | nil => intro st a b h; exact h
  | cons y rest ih =>
    intro st a b h
    exact sweepRow_mono g st y a b (ih (sweepRow g st y) a b h)

/-- C8: the OBSTACLE set of the decomposed map is a superset of the OBSTACLE
set of the input map: the sweep starts from an exact copy and only ever
paints FREE pixels to OBSTACLE. -/
theorem decomposition_preserves_obstacles (g : Grid) (y x : Nat)
    (h : g.cell y x = false) : (decompose g).cell y x = false := by
  cases hc : (decompose g).cell y x with
  | false => rfl
  | true =>
    have hg : g.cell y x = true := by
      rw [decompose] at hc
      simp only [decomposeAux] at hc
      exact sweepFold_mono g _ _ y x hc
    rw [hg] at h
    cases h

/-- Witness for `decomposition_preserves_obstacles` on a 2x2 map with one
obstacle pixel. -/
theorem decomposition_preserves_obstacles_w :
    Grid.cell [[true, false], [true, true]] 0 1 = false ∧
      (decompose [[true, false], [true, true]]).cell 0 1 = false :=
  ⟨by decide, decomposition_preserves_obstacles [[true, false], [true, true]] 0 1 (by decide)⟩

/-- A list of OBSTACLE pixels reads OBSTACLE at every index. -/
theorem getD_false_of_all_false (l : List Bool) (h : ∀ b ∈ l, b = false) :
    ∀ x, l.getD x false = false := by
  induction l with
  | nil => intro x; cases x <;> rfl
  | cons b rest ih =>
    intro x
    cases x with
    | zero => exact h b (List.mem_cons_self b rest)
    | succ x' =>
      exact ih (fun c hc => h c (List.mem_cons_of_mem b hc)) x'

/-- In a grid whose rows hold only OBSTACLE pixels, every pixel access
returns OBSTACLE. -/
theorem cell_false_of_all_false (g : Grid)
    (h : ∀ row ∈ g, ∀ b ∈ row, b = false) :
    ∀ y x, g.cell y x = false := by
  intro y x
  rw [Grid.cell]
  induction g generalizing y with
  | nil => cases y <;> rfl
  | cons row rest ih =>
    cases y with
    | zero =>
      exact getD_false_of_all_false row (h row (List.mem_cons_self row rest)) x
    | succ y' =>
      exact ih (fun r hr => h r (List.mem_cons_of_mem row hr)) y'

/-- An element of a numbered row list is a row of the original list. -/
theorem snd_mem_of_mem_enumFrom {α : Type} :
    ∀ (l : List α) (n : Nat) (p : Nat × α), p ∈ List.enumFrom n l → p.2 ∈ l := by
  intro l
  induction l with
  | nil => intro n p h; cases h
  | cons a rest ih =>
    intro n p h
    rcases List.mem_cons.mp h with rfl | hmem
    · exact List.mem_cons_self a rest
    · exact List.mem_cons_of_mem a (ih (n + 1) p hmem)

/-- On a FREE-less numbered row list the initialisation loop never changes
its state. -/
theorem initGo_all_obstacle :
    ∀ (rows : List (Nat × List Bool)) (s : InitState), s.found = false →
      (∀ p ∈ rows, ∀ b ∈ p.2, b = false) → initGo rows s = s := by
  intro rows
  induction rows with
  | nil => intro s _ _; rfl
  | cons p rest ih =>
    intro s hs h
    obtain ⟨y, row⟩ := p
    have hrow : row.any (fun b => b) = false := by
      cases hx : row.any (fun b => b) with
      | false => rfl
      | true =>
        obtain ⟨c, hc, hct⟩ := List.any_eq_true.mp hx
        have := h (y, row) (List.mem_cons_self _ _) c hc
        rw [this] at hct
        cases hct
    have heq : initRow s y row = s := initRow_no_free y row s hs hrow
    simp only [initGo, heq, hs, Bool.false_eq_true, if_false]
    exact ih s hs (fun q hq => h q (List.mem_cons_of_mem _ hq))

/-- On a FREE-less grid the segment count of every slice is zero. -/
theorem countSegments_all_obstacle (g : Grid)
    (h : ∀ y x, g.cell y x = false) (y : Nat) : countSegments g y = 0 := by
  rw [countSegments]
  have : ∀ l : List Nat,
      (l.foldl (fun s x => segStep s (g.cell y x)) ⟨0, false, false⟩) =
        (⟨0, false, false⟩ : SegState) := by
    intro l
    induction l with
    | nil => rfl
    | cons x rest ih =>
      rw [List.foldl_cons, h y x]
      exact ih
  rw [this]

/-- On a FREE-less grid no event fires, so the sweep leaves its state
unchanged. -/
theorem sweepFold_all_obstacle (g : Grid) (h : ∀ y x, g.cell y x = false) :
    ∀ (ys : List Nat),
      ys.foldl (sweepRow g) ((0 : Nat), g, ([] : List (Int × Int))) =
        ((0 : Nat), g, ([] : List (Int × Int))) := by
  intro ys
  induction ys with
  | nil => rfl
  | cons y rest ih =>
    rw [List.foldl_cons]
    have hrow : sweepRow g ((0 : Nat), g, ([] : List (Int × Int))) y =
        ((0 : Nat), g, ([] : List (Int × Int))) := by
      rw [sweepRow, countSegments_all_obstacle g h y]
      simp
    rw [hrow]
    exact ih

/-- C4: on a grid without any FREE pixel the sweep paints nothing (the cell
map equals the input), the contour oracle extracts zero cells, and the
planner returns the empty pose list (in both footprint and FOV mode, the
latter using the footprint adapter's contract that an empty FOV path maps to
an empty body path). -/
theorem no_free_cells_empty_output {α : Type} (g : Grid)
    (extract : Grid → List α) (containsStart : α → Bool) (tsp : Nat → List Nat)
    (stitch : α → Int × Int → List (Int × Int) × (Int × Int))
    (angleOf : (Int × Int) → (Int × Int) → Rat) (pf : Bool)
    (mapPathFn : Rat × Rat → List Pose → List Pose)
    (res ox oy : Rat) (offset : Rat × Rat) (start : Int × Int)
    (hg : ∀ row ∈ g, ∀ b ∈ row, b = false)
    (hext : ∀ m : Grid, (∀ row ∈ m, ∀ b ∈ row, b = false) → extract m = [])
    (hmp : mapPathFn offset [] = []) :
    decompose g = g ∧ extract (decompose g) = [] ∧
      getExplorationPath extract containsStart tsp stitch angleOf pf mapPathFn
        res ox oy offset g start = [] := by
  have hcell := cell_false_of_all_false g hg
  have hinit : initScan g = ⟨0, 0, false, false⟩ := by
    rw [initScan]
    exact initGo_all_obstacle g.enum ⟨0, 0, false, false⟩ rfl
      (fun p hp => hg p.2 (snd_mem_of_mem_enumFrom g 0 p hp))
  have hdec : decompose g = g := by
    rw [decompose]
    simp only [decomposeAux, hinit]
    rw [sweepFold_all_obstacle g hcell]
  refine ⟨hdec, ?_, ?_⟩
  · rw [hdec]
    exact hext g hg
  · have hcells : extract (decompose g) = [] := by rw [hdec]; exact hext g hg
    rw [getExplorationPath, hcells]
    cases pf with
    | true => rfl
    | false =>
      show mapPathFn offset
        (posesFromPath angleOf (cellLoop stitch [] (visitOrder tsp []) start)) = []
      have : cellLoop stitch ([] : List α) (visitOrder tsp []) start = [] := rfl
      rw [this]
      exact hmp

/-- Witness for `no_free_cells_empty_output` on a 1x1 OBSTACLE grid with
trivial oracles. -/
theorem no_free_cells_empty_output_w :
    (∀ row ∈ ([[false]] : Grid), ∀ b ∈ row, b = false) ∧
      decompose [[false]] = [[false]] ∧
      getExplorationPath (fun _ => ([] : List Unit)) (fun _ => true)
        (fun i => [i]) (fun _ p => ([], p)) (fun _ _ => 0) false
        (fun off poses => mapPathModel (fun _ _ _ => none) off ⟨0, 0, 0⟩ poses)
        1 0 0 (0, 0) [[false]] (0, 0) = [] := by
  have h := no_free_cells_empty_output [[false]] (fun _ => ([] : List Unit))
    (fun _ => true) (fun i => [i]) (fun _ p => ([], p)) (fun _ _ => 0) false
    (fun off poses => mapPathModel (fun _ _ _ => none) off ⟨0, 0, 0⟩ poses)
    1 0 0 (0, 0) (0, 0) (by decide) (fun m _ => rfl) rfl
  exact ⟨by decide, h.1, h.2.2⟩
